import Mathlib

/-!
Shallow embedding of the transition cost core of the map matcher
(`src/src/meili/transition_cost_model.cc`).

Modelling conventions:
* C++ `float` values are embedded as exact rationals `ℚ` (reals `ℝ` where the
  exponential function is involved, i.e. the turn cost table).
* External collaborators that the file only calls through (the point distance
  of `midgard::PointLL`, the shortest path expander of `meili/routing.h`, the
  Viterbi predecessor lookup, the column and measurement getters) are fields of
  the model, exactly as the C++ class stores them by reference.
* Fallible code (`throw std::invalid_argument`, `throw std::logic_error`)
  is embedded with `Except String`.
* `State`, whose header is not part of `src/`, is modelled from the spec
  (section 3): a `stateid`, a candidate, a `routed` flag and the mapping from
  right-neighbour `StateId` to the best reached label.
-/

/-- `StateId`: a pair (time, id) identifying a candidate at column `time`.
An invalid `StateId` (the sentinel returned by `Predecessor`) is modelled by
`Option.none` at the lookup. -/
structure StateId where
  time : ℕ
  id : ℕ
  deriving DecidableEq, Repr

/-- A reached label: the turn cost accrued at the final edge, the accumulated
cost (`cost().cost`) and the accumulated seconds (`cost().secs`). -/
structure Label where
  turn_cost : ℚ
  cost : ℚ
  secs : ℚ
  deriving DecidableEq, Repr

/-- A measurement: coordinate, epoch time in seconds and search radius. -/
structure Measurement where
  lnglat : ℚ × ℚ
  epoch_time : ℚ
  search_radius : ℚ
  deriving DecidableEq, Repr

/-- Modelled from the spec: a `State` (header `meili/state.h`, absent from
`src/`) holds its `StateId`, its candidate `PathLocation` (opaque here, a
token), the `routed` flag, and the mapping from right-neighbour `StateId` to
the best reached label (empty until routed). -/
structure State where
  stateid : StateId
  candidate : ℕ
  routed : Bool
  labels : List (StateId × Label)
  deriving DecidableEq, Repr

instance : Inhabited State := ⟨⟨⟨0, 0⟩, 0, false, []⟩⟩

/-- Lookup of a `StateId` key in the cached label mapping of a `State`. -/
def lookupLabel (sid : StateId) : List (StateId × Label) → Option Label
  | [] => none
  | p :: ps => if p.1 = sid then some p.2 else lookupLabel sid ps

/-- Modelled from the spec: `State::last_label` resolves a right candidate to
its best reached label from this left state (none when the candidate was not
reached). It keys on the argument state's `StateId`. -/
def State.last_label (s right : State) : Option Label :=
  lookupLabel right.stateid s.labels

/-- The Viterbi search as consumed here: only the predecessor lookup;
`none` models the invalid (`!IsValid()`) sentinel. -/
structure IViterbiSearch where
  Predecessor : StateId → Option StateId

/-- The arguments handed to `find_shortest_path` (and the capacity handed to
the `LabelSet` constructor) in `UpdateRoute`, lines 163-176 of the source. -/
structure ExpanderCall where
  locations : List ℕ
  edgelabel : Option Label
  search_radius : ℚ
  capacity : ℚ
  max_dist : ℚ
  max_time : ℚ

/-- The transition cost model: collaborators held by reference plus the five
numeric knobs, lines 18-57 of the source. The graph reader, costing objects
and travel mode are opaque to every behaviour modelled here and are folded
into the `find_shortest_path` field. -/
structure TransitionCostModel where
  vs_ : IViterbiSearch
  get_column_ : ℕ → List State
  get_measurement_ : ℕ → Measurement
  Distance : ℚ × ℚ → ℚ × ℚ → ℚ
  find_shortest_path : ExpanderCall → List (Option Label)
  beta_ : ℚ
  breakage_distance_ : ℚ
  max_route_distance_factor_ : ℚ
  max_route_time_factor_ : ℚ
  turn_penalty_factor_ : ℚ

/-- Source line 37: `inv_beta_(1.f / beta_)`. -/
def TransitionCostModel.inv_beta_ (m : TransitionCostModel) : ℚ := 1 / m.beta_

/-- Source lines 5-8: `left.lnglat().Distance(right.lnglat())`; the point
distance itself is the external `midgard` primitive carried by the model. -/
def GreatCircleDistance (m : TransitionCostModel) (left right : Measurement) : ℚ :=
  m.Distance left.lnglat right.lnglat

/-- Source lines 10-12: `right.epoch_time() - left.epoch_time()`. -/
def ClockDistance (left right : Measurement) : ℚ :=
  right.epoch_time - left.epoch_time

/-- Source lines 83 and 111: `get_column_(lhs.time())[lhs.id()]`. -/
def TransitionCostModel.leftState (m : TransitionCostModel) (lhs : StateId) : State :=
  (m.get_column_ lhs.time).getD lhs.id default

/-- Source lines 84 and 112: `get_column_(rhs.time())[lhs.id()]` — note the
index is `lhs.id()`, not `rhs.id()`. -/
def TransitionCostModel.rightState (m : TransitionCostModel) (lhs rhs : StateId) : State :=
  (m.get_column_ rhs.time).getD lhs.id default

/-- Follows the spec's words (sections 4.1 and 9): the right state is the state
identified by `rhs` itself, `get_column_(rhs.time())[rhs.id()]`. To be compared
with `TransitionCostModel.rightState`, translated from the source. -/
def rightStateSpec (m : TransitionCostModel) (rhs : StateId) : State :=
  (m.get_column_ rhs.time).getD rhs.id default

/-- Great-circle distance between the two measurements of a transition. -/
def TransitionCostModel.gcDist (m : TransitionCostModel) (lhs rhs : StateId) : ℚ :=
  GreatCircleDistance m (m.get_measurement_ lhs.time) (m.get_measurement_ rhs.time)

/-- Clock distance between the two measurements of a transition. -/
def TransitionCostModel.clkDist (m : TransitionCostModel) (lhs rhs : StateId) : ℚ :=
  ClockDistance (m.get_measurement_ lhs.time) (m.get_measurement_ rhs.time)

/-- `std::ceil` on the embedded rationals. -/
def ceilQ (x : ℚ) : ℚ := (⌈x⌉ : ℚ)

/-- Modelled from the spec: `State::SetRoute` binds each unreached right
`StateId` to the label the expander reached for it (if any), populating the
lookup used by `last_label`. -/
def bindResults : List StateId → List (Option Label) → List (StateId × Label)
  | [], _ => []
  | _, [] => []
  | sid :: sids, r :: rs =>
    match r with
    | some lab => (sid, lab) :: bindResults sids rs
    | none => bindResults sids rs

/-- Writing the updated left state back into its column. -/
def updateColumn (col : ℕ → List State) (t i : ℕ) (s : State) : ℕ → List State :=
  fun u => if u = t then (col t).set i s else col u

/-- Source lines 134-145: the right column is read at `right.stateid().time()`
and every state whose Viterbi predecessor is invalid becomes a destination. -/
def TransitionCostModel.unreachedStates (m : TransitionCostModel) (lhs rhs : StateId) : List State :=
  (m.get_column_ (m.rightState lhs rhs).stateid.time).filter
    (fun s => (m.vs_.Predecessor s.stateid).isNone)

/-- Source lines 147-176: the budgets and the arguments of the expander call.
`capacity` is the `LabelSet` constructor argument of line 163,
`max_dist` and `max_time` the two ceilings of lines 175-176. -/
def TransitionCostModel.expanderCall (m : TransitionCostModel) (lhs rhs : StateId)
    (edgelabel : Option Label) : ExpanderCall :=
  { locations := (m.leftState lhs).candidate :: (m.unreachedStates lhs rhs).map State.candidate
    edgelabel := edgelabel
    search_radius := (m.get_measurement_ rhs.time).search_radius
    capacity := max (ceilQ (min (m.gcDist lhs rhs * m.max_route_distance_factor_) m.breakage_distance_)) 1
    max_dist := ceilQ (min (m.gcDist lhs rhs * m.max_route_distance_factor_) m.breakage_distance_)
    max_time := ceilQ (m.clkDist lhs rhs * m.max_route_time_factor_) }

/-- Source line 178: the left state after `SetRoute`: `routed` is set and the
unreached stateids are bound to the expander's results. -/
def TransitionCostModel.routedLeftState (m : TransitionCostModel) (lhs rhs : StateId)
    (edgelabel : Option Label) : State :=
  { m.leftState lhs with
    routed := true
    labels := bindResults ((m.unreachedStates lhs rhs).map State.stateid)
      (m.find_shortest_path (m.expanderCall lhs rhs edgelabel)) }

/-- Source lines 133-178: given the seeded edgelabel, run the expander and
persist the results on the left state. The returned `ExpanderCall` records
what was handed to the expander. -/
def TransitionCostModel.routeWith (m : TransitionCostModel) (lhs rhs : StateId)
    (edgelabel : Option Label) : TransitionCostModel × ExpanderCall :=
  ({ m with get_column_ := updateColumn m.get_column_ lhs.time lhs.id (m.routedLeftState lhs rhs edgelabel) },
   m.expanderCall lhs rhs edgelabel)

/-- Source lines 108-179: `TransitionCostModel::UpdateRoute`. The edgelabel is
seeded from the Viterbi predecessor of the left state when it is valid; a
valid but unrouted predecessor is the fatal logic error of lines 126-128. -/
def TransitionCostModel.UpdateRoute (m : TransitionCostModel) (lhs rhs : StateId) :
    Except String (TransitionCostModel × ExpanderCall) :=
  match m.vs_.Predecessor (m.leftState lhs).stateid with
  | some prev_stateid =>
    if ((m.get_column_ prev_stateid.time).getD prev_stateid.id default).routed then
      .ok (m.routeWith lhs rhs
        (((m.get_column_ prev_stateid.time).getD prev_stateid.id default).last_label (m.leftState lhs)))
    else
      .error "The predecessor of current state must have been routed. Check if you have misused the TransitionCost method"
  | none => .ok (m.routeWith lhs rhs none)

/-- Modelled from the spec: `CalculateTransitionCost` is declared in
`meili/transition_cost_model.h`, which is absent from `src/`; the spec
(section 4.1) gives
`cost = turn_cost + inv_beta * (|route_distance - gc_dist| + |route_time - clk_dist|)`. -/
def CalculateTransitionCost (turn_cost route_distance gc_dist route_time clk_dist inv_beta : ℚ) : ℚ :=
  turn_cost + inv_beta * (|route_distance - gc_dist| + |route_time - clk_dist|)

/-- Source lines 90-105: the lookup-and-convert step of `operator()`, executed
once the left state is routed: `left.last_label(right)`, then either
`CalculateTransitionCost` on the found label or the `-1` sentinel. -/
def TransitionCostModel.costFromCache (m : TransitionCostModel) (lhs rhs : StateId) : ℚ :=
  match (m.leftState lhs).last_label (m.rightState lhs rhs) with
  | some label =>
    CalculateTransitionCost label.turn_cost label.cost (m.gcDist lhs rhs)
      label.secs (m.clkDist lhs rhs) m.inv_beta_
  | none => -1

/-- Source lines 80-106: `TransitionCostModel::operator()`. Returns the cost,
the model with the (possibly) updated column, and whether an expansion ran. -/
def TransitionCostModel.cost (m : TransitionCostModel) (lhs rhs : StateId) :
    Except String (ℚ × TransitionCostModel × Bool) :=
  if (m.leftState lhs).routed then .ok (m.costFromCache lhs rhs, m, false)
  else
    match m.UpdateRoute lhs rhs with
    | .error e => .error e
    | .ok (m', _) => .ok (m'.costFromCache lhs rhs, m', true)

/-- Source lines 18-57 (minus the turn cost table, see `mkTurnCostTable`):
the validating constructor. -/
def mkTransitionCostModel (vs : IViterbiSearch) (get_column : ℕ → List State)
    (get_measurement : ℕ → Measurement) (d : ℚ × ℚ → ℚ × ℚ → ℚ)
    (fsp : ExpanderCall → List (Option Label))
    (beta breakage_distance max_route_distance_factor max_route_time_factor turn_penalty_factor : ℚ) :
    Except String TransitionCostModel :=
  if beta ≤ 0 then .error "Expect beta to be positive"
  else if turn_penalty_factor < 0 then .error "Expect turn penalty factor to be nonnegative"
  else .ok ⟨vs, get_column, get_measurement, d, fsp, beta, breakage_distance,
    max_route_distance_factor, max_route_time_factor, turn_penalty_factor⟩

/-- Source lines 42 and 52-56: the 181-entry turn cost table, zero-initialized
and filled with `turn_penalty_factor * exp(-i/45)` only when the factor is
positive. -/
noncomputable def mkTurnCostTable (turn_penalty_factor : ℝ) : Fin 181 → ℝ :=
  fun i =>
    if 0 < turn_penalty_factor then turn_penalty_factor * Real.exp (-(i.val : ℝ) / 45)
    else 0

/-- Projection: the distance ceiling an `UpdateRoute` outcome handed to the
expander, when no logic error was raised. -/
def sentDist : Except String (TransitionCostModel × ExpanderCall) → Option ℚ
  | .ok (_, c) => some c.max_dist
  | .error _ => none

/-- Projection: the `LabelSet` capacity an `UpdateRoute` outcome used, when no
logic error was raised. -/
def sentCapacity : Except String (TransitionCostModel × ExpanderCall) → Option ℚ
  | .ok (_, c) => some c.capacity
  | .error _ => none

/-- Projection: the model state after a `cost` call that did not raise. -/
def afterModel : Except String (ℚ × TransitionCostModel × Bool) → Option TransitionCostModel
  | .ok (_, m, _) => some m
  | .error _ => none

/-- Projection: whether a `cost` call that did not raise ran an expansion. -/
def didExpand : Except String (ℚ × TransitionCostModel × Bool) → Option Bool
  | .ok (_, _, e) => some e
  | .error _ => none

/-- Projection: the value a `cost` call that did not raise returned. -/
def costValue : Except String (ℚ × TransitionCostModel × Bool) → Option ℚ
  | .ok (v, _, _) => some v
  | .error _ => none

/-! Concrete instances used by the witnesses and counterexamples: two columns
of two states each, measurements 100 metres and 10 seconds apart, an expander
that reaches every destination with a zero label. -/

/-- Concrete label: zero turn cost, zero accumulated cost and seconds. -/
def L0 : Label := ⟨0, 0, 0⟩

/-- Concrete state (time 0, id 0). -/
def S00 : State := ⟨⟨0, 0⟩, 0, false, []⟩

/-- Concrete state (time 0, id 1). -/
def S01 : State := ⟨⟨0, 1⟩, 1, false, []⟩

/-- Concrete state (time 1, id 0). -/
def S10 : State := ⟨⟨1, 0⟩, 2, false, []⟩

/-- Concrete state (time 1, id 1). -/
def S11 : State := ⟨⟨1, 1⟩, 3, false, []⟩

/-- Concrete columns: two states at time 0, two at time 1. -/
def colW : ℕ → List State :=
  fun t => if t = 0 then [S00, S01] else if t = 1 then [S10, S11] else []

/-- Concrete measurements: one unit of longitude and ten seconds apart per
time step. -/
def measW : ℕ → Measurement :=
  fun t => ⟨((t : ℚ), 0), 10 * (t : ℚ), 5⟩

/-- Concrete point distance: 100 metres between distinct points. -/
def distW : ℚ × ℚ → ℚ × ℚ → ℚ :=
  fun p q => if p = q then 0 else 100

/-- Concrete expander: reaches every destination with `L0`. -/
def expW : ExpanderCall → List (Option Label) :=
  fun c => (c.locations.drop 1).map (fun _ => some L0)

/-- Base concrete model: no Viterbi predecessors, beta 1, breakage 1000,
both factors 1, turn penalty factor 0. -/
def MW : TransitionCostModel :=
  ⟨⟨fun _ => none⟩, colW, measW, distW, expW, 1, 1000, 1, 1, 0⟩

/-- The base model after the first `cost((0,0),(1,0))` call routed state (0,0). -/
def MWr : TransitionCostModel :=
  match MW.cost ⟨0, 0⟩ ⟨1, 0⟩ with
  | .ok (_, m, _) => m
  | .error _ => MW

/-- Concrete model in which state (1,0) has a valid Viterbi predecessor. -/
def M1 : TransitionCostModel :=
  { MW with vs_ := ⟨fun sid => if sid = ⟨1, 0⟩ then some ⟨0, 0⟩ else none⟩ }

/-- The model `M1` after `UpdateRoute((0,1),(1,0))` routed state (0,1). -/
def M1r : TransitionCostModel :=
  match M1.UpdateRoute ⟨0, 1⟩ ⟨1, 0⟩ with
  | .ok (m, _) => m
  | .error _ => M1

/-- The expander call `UpdateRoute((0,1),(1,0))` made on `M1`. -/
def call1 : ExpanderCall :=
  match M1.UpdateRoute ⟨0, 1⟩ ⟨1, 0⟩ with
  | .ok (_, c) => c
  | .error _ => ⟨[], none, 0, 0, 0, 0⟩

/-- Concrete model with a non-integer breakage distance of half a metre. -/
def M6 : TransitionCostModel := { MW with breakage_distance_ := 1/2 }

/-- Concrete model with coincident measurements (zero point distance). -/
def M7 : TransitionCostModel := { MW with Distance := fun _ _ => 0 }

/-- Concrete model in which state (0,1) has the (unrouted) predecessor (0,0). -/
def M8 : TransitionCostModel :=
  { MW with vs_ := ⟨fun sid => if sid = ⟨0, 1⟩ then some ⟨0, 0⟩ else none⟩ }

/-! General lemmas about the embedding. -/

theorem lookupLabel_mem {l : List (StateId × Label)} {sid : StateId} {lab : Label}
    (h : lookupLabel sid l = some lab) : ∃ p, p ∈ l ∧ p.1 = sid ∧ p.2 = lab := by
  induction l with
  | nil => simp [lookupLabel] at h
  | cons p ps ih =>
    by_cases hp : p.1 = sid
    · refine ⟨p, List.mem_cons_self p ps, hp, ?_⟩
      simpa [lookupLabel, hp] using h
    · obtain ⟨q, hq, h1, h2⟩ := ih (by simpa [lookupLabel, hp] using h)
      exact ⟨q, List.mem_cons_of_mem p hq, h1, h2⟩

theorem bindResults_fst_mem {sids : List StateId} {rs : List (Option Label)}
    {p : StateId × Label} (h : p ∈ bindResults sids rs) : p.1 ∈ sids := by
  induction sids generalizing rs with
  | nil => simp [bindResults] at h
  | cons sid sids ih =>
    cases rs with
    | nil => simp [bindResults] at h
    | cons r rs =>
      cases r with
      | some lab =>
        rcases (by simpa [bindResults] using h : p = (sid, lab) ∨ p ∈ bindResults sids rs) with
            h1 | h1
        · simp [h1]
        · exact List.mem_cons_of_mem _ (ih h1)
      | none => exact List.mem_cons_of_mem _ (ih (by simpa [bindResults] using h))

theorem getD_set_self {α : Type} (l : List α) (i : ℕ) (a d : α) (h : i < l.length) :
    (l.set i a).getD i d = a := by
  induction l generalizing i with
  | nil => simp at h
  | cons x xs ih =>
    cases i with
    | zero => simp
    | succ n => simpa using ih n (by simpa using h)

theorem getD_set_of_len_le {α : Type} (l : List α) (i : ℕ) (a d : α) (h : l.length ≤ i) :
    (l.set i a).getD i d = d := by
  induction l generalizing i with
  | nil => simp [List.getD]
  | cons x xs ih =>
    cases i with
    | zero => simp at h
    | succ n => simpa using ih n (by simpa using h)

theorem ceilQ_mono {a b : ℚ} (h : a ≤ b) : ceilQ a ≤ ceilQ b := by
  unfold ceilQ
  exact_mod_cast Int.ceil_mono h

theorem UpdateRoute_ok_exists {m : TransitionCostModel} {lhs rhs : StateId}
    {m' : TransitionCostModel} {call : ExpanderCall}
    (h : m.UpdateRoute lhs rhs = .ok (m', call)) :
    ∃ el, (m', call) = m.routeWith lhs rhs el := by
  unfold TransitionCostModel.UpdateRoute at h
  split at h
  · split at h
    · simp only [Except.ok.injEq] at h
      exact ⟨_, h.symm⟩
    · exact Except.noConfusion h
  · simp only [Except.ok.injEq] at h
    exact ⟨none, h.symm⟩

/-! Claim theorems. -/

/-- C4: construction fails with an invalid-argument error iff `beta ≤ 0` or
`turn_penalty_factor < 0`; for every input with `beta > 0` and
`turn_penalty_factor ≥ 0`, construction succeeds. -/
theorem tcm_c4 (vs : IViterbiSearch) (col : ℕ → List State) (meas : ℕ → Measurement)
    (d : ℚ × ℚ → ℚ × ℚ → ℚ) (fsp : ExpanderCall → List (Option Label))
    (beta br mrdf mrtf tpf : ℚ) :
    ((∃ e, mkTransitionCostModel vs col meas d fsp beta br mrdf mrtf tpf = .error e) ↔
      (beta ≤ 0 ∨ tpf < 0))
    ∧ (0 < beta → 0 ≤ tpf →
      ∃ m, mkTransitionCostModel vs col meas d fsp beta br mrdf mrtf tpf = .ok m
        ∧ m.beta_ = beta ∧ m.turn_penalty_factor_ = tpf) := by
  constructor
  · constructor
    · rintro ⟨e, he⟩
      by_cases hb : beta ≤ 0
      · exact Or.inl hb
      · by_cases ht : tpf < 0
        · exact Or.inr ht
        · rw [mkTransitionCostModel, if_neg hb, if_neg ht] at he
          exact Except.noConfusion he
    · intro h
      unfold mkTransitionCostModel
      by_cases hb : beta ≤ 0
      · exact ⟨_, by rw [if_pos hb]⟩
      · rcases h with h | h
        · exact absurd h hb
        · exact ⟨_, by rw [if_neg hb, if_pos h]⟩
  · intro hb ht
    refine ⟨⟨vs, col, meas, d, fsp, beta, br, mrdf, mrtf, tpf⟩, ?_, rfl, rfl⟩
    rw [mkTransitionCostModel, if_neg (not_le.mpr hb), if_neg (not_lt.mpr ht)]

/-- C4 witness: `beta = 0` and `turn_penalty_factor = -1` each fail, while
`beta = 1`, `turn_penalty_factor = 0` succeeds. -/
theorem tcm_c4_witness :
    (∃ e, mkTransitionCostModel ⟨fun _ => none⟩ colW measW distW expW 0 1000 1 1 0 = .error e)
    ∧ (∃ e, mkTransitionCostModel ⟨fun _ => none⟩ colW measW distW expW 1 1000 1 1 (-1) = .error e)
    ∧ (∃ m, mkTransitionCostModel ⟨fun _ => none⟩ colW measW distW expW 1 1000 1 1 0 = .ok m
        ∧ m.beta_ = 1 ∧ m.turn_penalty_factor_ = 0) :=
  ⟨(tcm_c4 ⟨fun _ => none⟩ colW measW distW expW 0 1000 1 1 0).1.mpr (Or.inl le_rfl),
   (tcm_c4 ⟨fun _ => none⟩ colW measW distW expW 1 1000 1 1 (-1)).1.mpr (Or.inr (by norm_num)),
   (tcm_c4 ⟨fun _ => none⟩ colW measW distW expW 1 1000 1 1 0).2 one_pos le_rfl⟩

/-- C5: after successful construction (`turn_penalty_factor ≥ 0`), every entry
of the turn cost table is `turn_penalty_factor * exp(-i/45)`; the table starts
at the factor itself, ends at `factor * exp(-4)`, is monotonically
non-increasing in the index, and is all zeros when the factor is zero. -/
theorem tcm_c5 (tpf : ℝ) (h : 0 ≤ tpf) :
    (∀ i : Fin 181, mkTurnCostTable tpf i = tpf * Real.exp (-(i.val : ℝ) / 45))
    ∧ mkTurnCostTable tpf ⟨0, by norm_num⟩ = tpf
    ∧ mkTurnCostTable tpf ⟨180, by norm_num⟩ = tpf * Real.exp (-4)
    ∧ (∀ i j : Fin 181, i ≤ j → mkTurnCostTable tpf j ≤ mkTurnCostTable tpf i)
    ∧ (tpf = 0 → ∀ i : Fin 181, mkTurnCostTable tpf i = 0) := by
  rcases eq_or_lt_of_le h with h0 | hpos
  · refine ⟨fun i => ?_, ?_, ?_, fun i j _ => ?_, fun _ i => ?_⟩ <;>
      simp [mkTurnCostTable, ← h0]
  · have hfill : ∀ i : Fin 181, mkTurnCostTable tpf i = tpf * Real.exp (-(i.val : ℝ) / 45) := by
      intro i
      simp [mkTurnCostTable, hpos]
    refine ⟨hfill, ?_, ?_, ?_, ?_⟩
    · rw [hfill]
      norm_num
    · rw [hfill]
      norm_num
    · intro i j hij
      rw [hfill, hfill]
      have hc : (i.val : ℝ) ≤ (j.val : ℝ) := by exact_mod_cast hij
      exact mul_le_mul_of_nonneg_left (Real.exp_le_exp.mpr (by linarith)) h
    · intro h0
      rw [h0] at hpos
      exact absurd hpos (lt_irrefl 0)

/-- C5 witness: the theorem applied at `turn_penalty_factor = 0`. -/
theorem tcm_c5_witness :
    (0:ℝ) ≤ 0 ∧
    ((∀ i : Fin 181, mkTurnCostTable 0 i = 0 * Real.exp (-(i.val : ℝ) / 45))
    ∧ mkTurnCostTable 0 ⟨0, by norm_num⟩ = 0
    ∧ mkTurnCostTable 0 ⟨180, by norm_num⟩ = 0 * Real.exp (-4)
    ∧ (∀ i j : Fin 181, i ≤ j → mkTurnCostTable 0 j ≤ mkTurnCostTable 0 i)
    ∧ ((0:ℝ) = 0 → ∀ i : Fin 181, mkTurnCostTable 0 i = 0)) :=
  ⟨le_rfl, tcm_c5 0 le_rfl⟩

theorem cost_routed (m : TransitionCostModel) (lhs rhs : StateId)
    (hr : (m.leftState lhs).routed = true) :
    m.cost lhs rhs = .ok (m.costFromCache lhs rhs, m, false) := by
  unfold TransitionCostModel.cost
  rw [if_pos hr]

theorem cost_unrouted_ok {m : TransitionCostModel} {lhs rhs : StateId}
    {m' : TransitionCostModel} {call : ExpanderCall}
    (hr : ¬(m.leftState lhs).routed = true)
    (hu : m.UpdateRoute lhs rhs = .ok (m', call)) :
    m.cost lhs rhs = .ok (m'.costFromCache lhs rhs, m', true) := by
  unfold TransitionCostModel.cost
  rw [if_neg hr, hu]

theorem cost_ok_parts {m : TransitionCostModel} {lhs rhs : StateId}
    {v : ℚ} {m' : TransitionCostModel} {e : Bool}
    (h : m.cost lhs rhs = .ok (v, m', e)) :
    v = m'.costFromCache lhs rhs
    ∧ ((m.leftState lhs).routed = true → m' = m ∧ e = false)
    ∧ (¬(m.leftState lhs).routed = true →
        ∃ call, m.UpdateRoute lhs rhs = .ok (m', call) ∧ e = true) := by
  by_cases hr : (m.leftState lhs).routed = true
  · rw [cost_routed m lhs rhs hr] at h
    simp only [Except.ok.injEq, Prod.mk.injEq] at h
    obtain ⟨h1, h2, h3⟩ := h
    exact ⟨by rw [← h1, ← h2], fun _ => ⟨h2.symm, h3.symm⟩, fun hc => absurd hr hc⟩
  · unfold TransitionCostModel.cost at h
    rw [if_neg hr] at h
    cases hu : m.UpdateRoute lhs rhs with
    | error e2 =>
      rw [hu] at h
      exact Except.noConfusion h
    | ok pr =>
      obtain ⟨m'', call⟩ := pr
      rw [hu] at h
      simp only [Except.ok.injEq, Prod.mk.injEq] at h
      obtain ⟨h1, h2, h3⟩ := h
      subst h2
      exact ⟨by rw [← h1], fun hc => absurd hc hr, fun _ => ⟨call, rfl, h3.symm⟩⟩

/-- C2 (amended): once the left state is routed, `cost(lhs, rhs)` returns `-1` iff no
reached label exists for the right state consulted by the code; in every other
case it returns the value computed from the found label (the nonnegativity
side conditions hold after construction: `beta > 0` and all cached turn costs
are nonnegative). -/
theorem tcm_c2 (m : TransitionCostModel) (lhs rhs : StateId)
    (hb : 0 < m.beta_)
    (ht : ∀ p ∈ (m.leftState lhs).labels, 0 ≤ p.2.turn_cost) :
    (m.costFromCache lhs rhs = -1 ↔
      (m.leftState lhs).last_label (m.rightState lhs rhs) = none)
    ∧ (∀ v m' e, m.cost lhs rhs = .ok (v, m', e) → v = m'.costFromCache lhs rhs) := by
  constructor
  · cases hl : (m.leftState lhs).last_label (m.rightState lhs rhs) with
    | none => simp [TransitionCostModel.costFromCache, hl]
    | some lab =>
      have hv : m.costFromCache lhs rhs =
          CalculateTransitionCost lab.turn_cost lab.cost (m.gcDist lhs rhs) lab.secs
            (m.clkDist lhs rhs) m.inv_beta_ := by
        simp [TransitionCostModel.costFromCache, hl]
      obtain ⟨p, hp, _, hp2⟩ := lookupLabel_mem (by simpa [State.last_label] using hl)
      have hturn : 0 ≤ lab.turn_cost := hp2 ▸ ht p hp
      have hinv : 0 ≤ m.inv_beta_ := le_of_lt (by
        unfold TransitionCostModel.inv_beta_
        exact one_div_pos.mpr hb)
      have hnn : 0 ≤ m.costFromCache lhs rhs := by
        rw [hv]
        unfold CalculateTransitionCost
        exact add_nonneg hturn
          (mul_nonneg hinv (add_nonneg (abs_nonneg _) (abs_nonneg _)))
      constructor
      · intro he
        rw [he] at hnn
        norm_num at hnn
      · intro he
        exact Option.noConfusion he
  · intro v m' e hc
    exact (cost_ok_parts hc).1

/-- C2 witness: the theorem applied to the routed concrete model `MWr`. -/
theorem tcm_c2_witness :
    0 < MWr.beta_
    ∧ (∀ p ∈ (MWr.leftState ⟨0, 0⟩).labels, 0 ≤ p.2.turn_cost)
    ∧ ((MWr.costFromCache ⟨0, 0⟩ ⟨1, 0⟩ = -1 ↔
        (MWr.leftState ⟨0, 0⟩).last_label (MWr.rightState ⟨0, 0⟩ ⟨1, 0⟩) = none)
      ∧ (∀ v m' e, MWr.cost ⟨0, 0⟩ ⟨1, 0⟩ = .ok (v, m', e) →
          v = m'.costFromCache ⟨0, 0⟩ ⟨1, 0⟩)) :=
  ⟨by decide, by decide, tcm_c2 MWr ⟨0, 0⟩ ⟨1, 0⟩ (by decide) (by decide)⟩

/-- C3: when a label is found for the consulted right state, the cached cost is
`turn_cost + inv_beta * (|route_distance - gc_dist| + |route_time - clk_dist|)`
with `inv_beta = 1 / beta`, and it is nonnegative whenever the label's turn
cost is nonnegative (with `beta > 0` as construction guarantees). -/
theorem tcm_c3 (m : TransitionCostModel) (lhs rhs : StateId) (lab : Label)
    (hlab : (m.leftState lhs).last_label (m.rightState lhs rhs) = some lab)
    (hb : 0 < m.beta_) (hturn : 0 ≤ lab.turn_cost) :
    m.costFromCache lhs rhs =
      lab.turn_cost + m.inv_beta_ *
        (|lab.cost - m.gcDist lhs rhs| + |lab.secs - m.clkDist lhs rhs|)
    ∧ m.inv_beta_ = 1 / m.beta_
    ∧ 0 ≤ m.costFromCache lhs rhs := by
  have hv : m.costFromCache lhs rhs =
      lab.turn_cost + m.inv_beta_ *
        (|lab.cost - m.gcDist lhs rhs| + |lab.secs - m.clkDist lhs rhs|) := by
    simp [TransitionCostModel.costFromCache, hlab, CalculateTransitionCost]
  refine ⟨hv, rfl, ?_⟩
  rw [hv]
  have hinv : 0 ≤ m.inv_beta_ := le_of_lt (by
    unfold TransitionCostModel.inv_beta_
    exact one_div_pos.mpr hb)
  exact add_nonneg hturn
    (mul_nonneg hinv (add_nonneg (abs_nonneg _) (abs_nonneg _)))

/-- C3 witness: the theorem applied to the routed concrete model `MWr` and the
label `L0` it cached for the right state. -/
theorem tcm_c3_witness :
    (MWr.leftState ⟨0, 0⟩).last_label (MWr.rightState ⟨0, 0⟩ ⟨1, 0⟩) = some L0
    ∧ 0 < MWr.beta_ ∧ 0 ≤ L0.turn_cost
    ∧ (MWr.costFromCache ⟨0, 0⟩ ⟨1, 0⟩ =
        L0.turn_cost + MWr.inv_beta_ *
          (|L0.cost - MWr.gcDist ⟨0, 0⟩ ⟨1, 0⟩| + |L0.secs - MWr.clkDist ⟨0, 0⟩ ⟨1, 0⟩|)
      ∧ MWr.inv_beta_ = 1 / MWr.beta_
      ∧ 0 ≤ MWr.costFromCache ⟨0, 0⟩ ⟨1, 0⟩) :=
  ⟨by decide, by decide, by decide,
   tcm_c3 MWr ⟨0, 0⟩ ⟨1, 0⟩ L0 (by decide) (by decide) (by decide)⟩

theorem UpdateRoute_pred_some {m : TransitionCostModel} {lhs : StateId} (rhs : StateId)
    {p : StateId} (hp : m.vs_.Predecessor (m.leftState lhs).stateid = some p) :
    m.UpdateRoute lhs rhs =
      if ((m.get_column_ p.time).getD p.id default).routed = true then
        .ok (m.routeWith lhs rhs
          (((m.get_column_ p.time).getD p.id default).last_label (m.leftState lhs)))
      else
        .error "The predecessor of current state must have been routed. Check if you have misused the TransitionCost method" := by
  unfold TransitionCostModel.UpdateRoute
  rw [hp]

theorem UpdateRoute_pred_none {m : TransitionCostModel} {lhs : StateId} (rhs : StateId)
    (hp : m.vs_.Predecessor (m.leftState lhs).stateid = none) :
    m.UpdateRoute lhs rhs = .ok (m.routeWith lhs rhs none) := by
  unfold TransitionCostModel.UpdateRoute
  rw [hp]

/-- C6 (amended): the distance ceiling actually passed to the expander is
`ceil(min(gc_dist * max_route_distance_factor, breakage_distance))`, and it
never exceeds `ceil(breakage_distance)` (but can exceed a non-integer
`breakage_distance` itself, see the counterexample). -/
theorem tcm_c6 (m : TransitionCostModel) (lhs rhs : StateId) (d : ℚ)
    (h : sentDist (m.UpdateRoute lhs rhs) = some d) :
    d = ceilQ (min (m.gcDist lhs rhs * m.max_route_distance_factor_) m.breakage_distance_)
    ∧ d ≤ ceilQ m.breakage_distance_ := by
  cases hu : m.UpdateRoute lhs rhs with
  | error e =>
    rw [hu] at h
    exact Option.noConfusion h
  | ok pr =>
    obtain ⟨m', call⟩ := pr
    rw [hu] at h
    simp only [sentDist, Option.some.injEq] at h
    obtain ⟨el, hpair⟩ := UpdateRoute_ok_exists hu
    have hc : call = m.expanderCall lhs rhs el := congrArg Prod.snd hpair
    have hd : d = (m.expanderCall lhs rhs el).max_dist := by rw [← h, hc]
    constructor
    · rw [hd]
      rfl
    · rw [hd]
      exact ceilQ_mono (min_le_right _ _)

/-- C6 counterexample: with `breakage_distance = 1/2` and a great-circle
distance of 100, the ceiling handed to the expander is `ceil(1/2) = 1`, which
exceeds the breakage distance, refuting the original claim. -/
theorem tcm_c6_cex :
    sentDist (M6.UpdateRoute ⟨0, 0⟩ ⟨1, 0⟩) = some (ceilQ (min ((100:ℚ) * 1) (1/2)))
    ∧ ceilQ (min ((100:ℚ) * 1) (1/2)) = 1
    ∧ M6.breakage_distance_ = 1/2
    ∧ ¬((1:ℚ) ≤ 1/2) := by
  refine ⟨rfl, ?_, rfl, by norm_num⟩
  have h1 : min ((100:ℚ) * 1) (1/2) = 1/2 := by norm_num
  rw [ceilQ, h1, show ⌈(1:ℚ)/2⌉ = 1 from by (rw [Int.ceil_eq_iff]; norm_num)]
  norm_num

/-- C6 witness: the amended theorem applied to the base concrete model, where
the ceiling handed to the expander is 100. -/
theorem tcm_c6_witness :
    sentDist (MW.UpdateRoute ⟨0, 0⟩ ⟨1, 0⟩) = some 100
    ∧ ((100:ℚ) =
        ceilQ (min (MW.gcDist ⟨0, 0⟩ ⟨1, 0⟩ * MW.max_route_distance_factor_) MW.breakage_distance_)
      ∧ (100:ℚ) ≤ ceilQ MW.breakage_distance_) := by
  have h1 : min ((100:ℚ) * 1) 1000 = 100 := by norm_num
  have hsent : sentDist (MW.UpdateRoute ⟨0, 0⟩ ⟨1, 0⟩) = some 100 := by
    rw [show sentDist (MW.UpdateRoute ⟨0, 0⟩ ⟨1, 0⟩) = some (ceilQ (min ((100:ℚ) * 1) 1000)) from rfl,
      ceilQ, h1, show ⌈(100:ℚ)⌉ = 100 from by (rw [Int.ceil_eq_iff]; norm_num)]
    norm_num
  exact ⟨hsent, tcm_c6 MW ⟨0, 0⟩ ⟨1, 0⟩ 100 hsent⟩

/-- C7: the capacity handed to the `LabelSet` constructor is
`max(ceil(min(gc_dist * max_route_distance_factor, breakage_distance)), 1)`,
hence at least 1 even for coincident measurements. -/
theorem tcm_c7 (m : TransitionCostModel) (lhs rhs : StateId) (c : ℚ)
    (h : sentCapacity (m.UpdateRoute lhs rhs) = some c) :
    c = max (ceilQ (min (m.gcDist lhs rhs * m.max_route_distance_factor_) m.breakage_distance_)) 1
    ∧ (1:ℚ) ≤ c := by
  cases hu : m.UpdateRoute lhs rhs with
  | error e =>
    rw [hu] at h
    exact Option.noConfusion h
  | ok pr =>
    obtain ⟨m', call⟩ := pr
    rw [hu] at h
    simp only [sentCapacity, Option.some.injEq] at h
    obtain ⟨el, hpair⟩ := UpdateRoute_ok_exists hu
    have hc : call = m.expanderCall lhs rhs el := congrArg Prod.snd hpair
    have hd : c = (m.expanderCall lhs rhs el).capacity := by rw [← h, hc]
    constructor
    · rw [hd]
      rfl
    · rw [hd]
      exact le_max_right _ _

/-- C7 witness: the theorem applied to the coincident-measurement model `M7`
(`gc_dist = 0`), where the expander is still invoked with capacity 1. -/
theorem tcm_c7_witness :
    M7.gcDist ⟨0, 0⟩ ⟨1, 0⟩ = 0
    ∧ sentCapacity (M7.UpdateRoute ⟨0, 0⟩ ⟨1, 0⟩) = some 1
    ∧ ((1:ℚ) =
        max (ceilQ (min (M7.gcDist ⟨0, 0⟩ ⟨1, 0⟩ * M7.max_route_distance_factor_) M7.breakage_distance_)) 1
      ∧ (1:ℚ) ≤ 1) := by
  have h1 : min ((0:ℚ) * 1) 1000 = 0 := by norm_num
  have hsent : sentCapacity (M7.UpdateRoute ⟨0, 0⟩ ⟨1, 0⟩) = some 1 := by
    rw [show sentCapacity (M7.UpdateRoute ⟨0, 0⟩ ⟨1, 0⟩)
        = some (max (ceilQ (min ((0:ℚ) * 1) 1000)) 1) from rfl,
      ceilQ, h1, show ⌈(0:ℚ)⌉ = 0 from by (rw [Int.ceil_eq_iff]; norm_num)]
    norm_num
  exact ⟨rfl, hsent, tcm_c7 M7 ⟨0, 0⟩ ⟨1, 0⟩ 1 hsent⟩

/-- C8: `UpdateRoute(lhs, rhs)` raises the logic-error failure iff the Viterbi
predecessor of the left state is valid and that predecessor's state is not yet
routed; when the predecessor is invalid, no error is raised and the expansion
is seeded with a null inbound edgelabel. -/
theorem tcm_c8 (m : TransitionCostModel) (lhs rhs : StateId) :
    ((∃ e, m.UpdateRoute lhs rhs = .error e) ↔
      (∃ p, m.vs_.Predecessor (m.leftState lhs).stateid = some p
        ∧ ¬((m.get_column_ p.time).getD p.id default).routed = true))
    ∧ (m.vs_.Predecessor (m.leftState lhs).stateid = none →
        ∃ m' call, m.UpdateRoute lhs rhs = .ok (m', call) ∧ call.edgelabel = none) := by
  constructor
  · constructor
    · rintro ⟨e, he⟩
      cases hp : m.vs_.Predecessor (m.leftState lhs).stateid with
      | none =>
        rw [UpdateRoute_pred_none rhs hp] at he
        exact Except.noConfusion he
      | some p =>
        rw [UpdateRoute_pred_some rhs hp] at he
        by_cases hr : ((m.get_column_ p.time).getD p.id default).routed = true
        · rw [if_pos hr] at he
          exact Except.noConfusion he
        · exact ⟨p, rfl, hr⟩
    · rintro ⟨p, hp, hr⟩
      rw [UpdateRoute_pred_some rhs hp, if_neg hr]
      exact ⟨_, rfl⟩
  · intro hp
    rw [UpdateRoute_pred_none rhs hp]
    exact ⟨_, _, rfl, rfl⟩

/-- C8 witness: on `M8` the predecessor of state (0,1) is the unrouted (0,0),
so `UpdateRoute` fails; on `MW` the predecessor is invalid, so it succeeds
with a null edgelabel. -/
theorem tcm_c8_witness :
    (∃ e, M8.UpdateRoute ⟨0, 1⟩ ⟨1, 0⟩ = .error e)
    ∧ (∃ m' call, MW.UpdateRoute ⟨0, 1⟩ ⟨1, 0⟩ = .ok (m', call) ∧ call.edgelabel = none) :=
  ⟨(tcm_c8 M8 ⟨0, 1⟩ ⟨1, 0⟩).1.mpr ⟨⟨0, 0⟩, by decide, by decide⟩,
   (tcm_c8 MW ⟨0, 1⟩ ⟨1, 0⟩).2 (by decide)⟩

theorem routeWith_leftState {m : TransitionCostModel} {lhs : StateId} (rhs : StateId)
    (el : Option Label) (hlen : lhs.id < (m.get_column_ lhs.time).length) :
    (m.routeWith lhs rhs el).1.leftState lhs = m.routedLeftState lhs rhs el := by
  have hcol : (m.routeWith lhs rhs el).1.get_column_ lhs.time
      = (m.get_column_ lhs.time).set lhs.id (m.routedLeftState lhs rhs el) := by
    show updateColumn m.get_column_ lhs.time lhs.id (m.routedLeftState lhs rhs el) lhs.time = _
    unfold updateColumn
    rw [if_pos rfl]
  show ((m.routeWith lhs rhs el).1.get_column_ lhs.time).getD lhs.id default = _
  rw [hcol]
  exact getD_set_self _ _ _ _ hlen

theorem routeWith_leftState_oor {m : TransitionCostModel} {lhs : StateId} (rhs : StateId)
    (el : Option Label) (hlen : ¬lhs.id < (m.get_column_ lhs.time).length) :
    (m.routeWith lhs rhs el).1.leftState lhs = default := by
  have hcol : (m.routeWith lhs rhs el).1.get_column_ lhs.time
      = (m.get_column_ lhs.time).set lhs.id (m.routedLeftState lhs rhs el) := by
    show updateColumn m.get_column_ lhs.time lhs.id (m.routedLeftState lhs rhs el) lhs.time = _
    unfold updateColumn
    rw [if_pos rfl]
  show ((m.routeWith lhs rhs el).1.get_column_ lhs.time).getD lhs.id default = _
  rw [hcol]
  exact getD_set_of_len_le _ _ _ _ (le_of_not_lt hlen)

theorem routedLeftState_bound_pred_none {m : TransitionCostModel} {lhs rhs : StateId}
    {el : Option Label} {sid : StateId} {lab : Label}
    (hl : lookupLabel sid (m.routedLeftState lhs rhs el).labels = some lab) :
    m.vs_.Predecessor sid = none := by
  obtain ⟨p, hp, hp1, _⟩ := lookupLabel_mem hl
  have hp' : p ∈ bindResults ((m.unreachedStates lhs rhs).map State.stateid)
      (m.find_shortest_path (m.expanderCall lhs rhs el)) := hp
  have hin : p.1 ∈ (m.unreachedStates lhs rhs).map State.stateid := bindResults_fst_mem hp'
  obtain ⟨s, hs, hsid⟩ := List.mem_map.mp hin
  have hfil : s ∈ m.get_column_ (m.rightState lhs rhs).stateid.time
      ∧ m.vs_.Predecessor s.stateid = none := by
    simpa [TransitionCostModel.unreachedStates, List.mem_filter] using hs
  rw [← hp1, ← hsid]
  exact hfil.2

/-- Value of the routed concrete model's cached cost at the consulted state. -/
theorem M1r_costFromCache_eq : M1r.costFromCache ⟨0, 1⟩ ⟨1, 0⟩ = 110 := by
  have h1 : M1r.costFromCache ⟨0, 1⟩ ⟨1, 0⟩ =
      CalculateTransitionCost L0.turn_cost L0.cost (M1r.gcDist ⟨0, 1⟩ ⟨1, 0⟩) L0.secs
        (M1r.clkDist ⟨0, 1⟩ ⟨1, 0⟩) M1r.inv_beta_ := by
    simp [TransitionCostModel.costFromCache,
      show (M1r.leftState ⟨0, 1⟩).last_label (M1r.rightState ⟨0, 1⟩ ⟨1, 0⟩) = some L0 from rfl]
  rw [h1, show M1r.gcDist ⟨0, 1⟩ ⟨1, 0⟩ = 100 from rfl,
    show M1r.clkDist ⟨0, 1⟩ ⟨1, 0⟩ = ClockDistance (measW 0) (measW 1) from rfl]
  norm_num [CalculateTransitionCost, ClockDistance, measW, L0,
    TransitionCostModel.inv_beta_, show M1r.beta_ = 1 from rfl]

/-- C1: the code reads the right state as `get_column_(rhs.time())[lhs.id()]`
and keys `last_label` on it, not on the state identified by `rhs`. On the
concrete model, for `lhs = (0,1)` and `rhs = (1,0)` the consulted state is
(1,1); the cached mapping has no label for (1,0) yet `cost` returns 110, the
value computed from the label cached for (1,1). -/
theorem tcm_c1_cex :
    (M1.rightState ⟨0, 1⟩ ⟨1, 0⟩).stateid = ⟨1, 1⟩
    ∧ (rightStateSpec M1 ⟨1, 0⟩).stateid = ⟨1, 0⟩
    ∧ M1.rightState ⟨0, 1⟩ ⟨1, 0⟩ ≠ rightStateSpec M1 ⟨1, 0⟩
    ∧ costValue (M1.cost ⟨0, 1⟩ ⟨1, 0⟩) = some (M1r.costFromCache ⟨0, 1⟩ ⟨1, 0⟩)
    ∧ M1r.costFromCache ⟨0, 1⟩ ⟨1, 0⟩ = 110
    ∧ lookupLabel ⟨1, 0⟩ (M1r.leftState ⟨0, 1⟩).labels = none
    ∧ lookupLabel ⟨1, 1⟩ (M1r.leftState ⟨0, 1⟩).labels = some L0 :=
  ⟨by decide, by decide, by decide, rfl, M1r_costFromCache_eq, rfl, rfl⟩

/-- C9: a `cost` call on an already-routed left state performs no expansion and
leaves the model unchanged; any successful `cost` call leaves the left state
routed, so every subsequent `cost(lhs, rhs')` performs no expansion and is
answered from the cache. -/
theorem tcm_c9 (m : TransitionCostModel) (lhs rhs : StateId)
    (hlen : lhs.id < (m.get_column_ lhs.time).length)
    (m' : TransitionCostModel) (h : afterModel (m.cost lhs rhs) = some m') :
    ((m.leftState lhs).routed = true → didExpand (m.cost lhs rhs) = some false ∧ m' = m)
    ∧ (m'.leftState lhs).routed = true
    ∧ (∀ rhs', m'.cost lhs rhs' = .ok (m'.costFromCache lhs rhs', m', false)) := by
  by_cases hr : (m.leftState lhs).routed = true
  · have hc := cost_routed m lhs rhs hr
    rw [hc] at h
    simp only [afterModel, Option.some.injEq] at h
    subst h
    exact ⟨fun _ => ⟨by rw [hc]; rfl, rfl⟩, hr, fun rhs' => cost_routed m lhs rhs' hr⟩
  · unfold TransitionCostModel.cost at h
    rw [if_neg hr] at h
    cases hu : m.UpdateRoute lhs rhs with
    | error e =>
      rw [hu] at h
      simp [afterModel] at h
    | ok pr =>
      obtain ⟨m'', call⟩ := pr
      rw [hu] at h
      simp only [afterModel, Option.some.injEq] at h
      subst h
      obtain ⟨el, hpair⟩ := UpdateRoute_ok_exists hu
      have hm' : m'' = (m.routeWith lhs rhs el).1 := congrArg Prod.fst hpair
      have hrouted : (m''.leftState lhs).routed = true := by
        rw [hm', routeWith_leftState rhs el hlen]
        rfl
      exact ⟨fun hcontr => absurd hcontr hr, hrouted, fun rhs' => cost_routed m'' lhs rhs' hrouted⟩

/-- C9 witness: on the base concrete model, routing (0,0) once then calling
`cost` again performs no further expansion. -/
theorem tcm_c9_witness :
    (⟨0, 0⟩ : StateId).id < (MW.get_column_ (⟨0, 0⟩ : StateId).time).length
    ∧ afterModel (MW.cost ⟨0, 0⟩ ⟨1, 0⟩) = some MWr
    ∧ (((MW.leftState ⟨0, 0⟩).routed = true →
          didExpand (MW.cost ⟨0, 0⟩ ⟨1, 0⟩) = some false ∧ MWr = MW)
      ∧ (MWr.leftState ⟨0, 0⟩).routed = true
      ∧ (∀ rhs', MWr.cost ⟨0, 0⟩ rhs' = .ok (MWr.costFromCache ⟨0, 0⟩ rhs', MWr, false))) :=
  ⟨by decide, rfl, tcm_c9 MW ⟨0, 0⟩ ⟨1, 0⟩ (by decide) MWr rfl⟩

/-- C10 (amended): the destination set bound by `UpdateRoute` contains exactly
the right-column states whose Viterbi predecessor is invalid, so every cached
label belongs to such a state; consequently, for every right StateId `r`, if
the state the lookup actually consults — the one at index `lhs.id()` of column
`r.time()` — has a valid Viterbi predecessor, every later `cost(lhs, r)`
returns `-1`. -/
theorem tcm_c10 (m : TransitionCostModel) (lhs rhs : StateId)
    (m' : TransitionCostModel) (call : ExpanderCall)
    (h : m.UpdateRoute lhs rhs = .ok (m', call)) :
    (∀ sid lab, lookupLabel sid (m'.leftState lhs).labels = some lab →
      m.vs_.Predecessor sid = none)
    ∧ (∀ r p, m.vs_.Predecessor (m'.rightState lhs r).stateid = some p →
        m'.costFromCache lhs r = -1) := by
  obtain ⟨el, hpair⟩ := UpdateRoute_ok_exists h
  have hm' : m' = (m.routeWith lhs rhs el).1 := congrArg Prod.fst hpair
  have hlab : ∀ sid lab, lookupLabel sid (m'.leftState lhs).labels = some lab →
      m.vs_.Predecessor sid = none := by
    intro sid lab hl
    rw [hm'] at hl
    by_cases hlen : lhs.id < (m.get_column_ lhs.time).length
    · rw [routeWith_leftState rhs el hlen] at hl
      exact routedLeftState_bound_pred_none hl
    · rw [routeWith_leftState_oor rhs el hlen] at hl
      simp [lookupLabel] at hl
  refine ⟨hlab, ?_⟩
  intro r p hpred
  cases hlook : lookupLabel (m'.rightState lhs r).stateid (m'.leftState lhs).labels with
  | some lab =>
    have hnone := hlab _ _ hlook
    rw [hnone] at hpred
    exact Option.noConfusion hpred
  | none =>
    simp [TransitionCostModel.costFromCache, State.last_label, hlook]

/-- C10 witness: the amended theorem applied to the concrete routing of (0,1)
on `M1`. -/
theorem tcm_c10_witness :
    M1.UpdateRoute ⟨0, 1⟩ ⟨1, 0⟩ = .ok (M1r, call1)
    ∧ ((∀ sid lab, lookupLabel sid (M1r.leftState ⟨0, 1⟩).labels = some lab →
          M1.vs_.Predecessor sid = none)
      ∧ (∀ r p, M1.vs_.Predecessor (M1r.rightState ⟨0, 1⟩ r).stateid = some p →
          M1r.costFromCache ⟨0, 1⟩ r = -1)) :=
  ⟨rfl, tcm_c10 M1 ⟨0, 1⟩ ⟨1, 0⟩ M1r call1 rfl⟩

/-- C10 counterexample: on `M1`, the right state (1,0) has a valid Viterbi
predecessor when (0,1) is routed, yet a later `cost((0,1),(1,0))` returns 110,
not `-1`: the lookup is keyed on the state at index `lhs.id()` (state (1,1)),
which was unreached and received a label. -/
theorem tcm_c10_cex :
    M1.vs_.Predecessor ⟨1, 0⟩ = some ⟨0, 0⟩
    ∧ M1.UpdateRoute ⟨0, 1⟩ ⟨1, 0⟩ = .ok (M1r, call1)
    ∧ costValue (M1r.cost ⟨0, 1⟩ ⟨1, 0⟩) = some (M1r.costFromCache ⟨0, 1⟩ ⟨1, 0⟩)
    ∧ M1r.costFromCache ⟨0, 1⟩ ⟨1, 0⟩ = 110
    ∧ (110 : ℚ) ≠ -1 :=
  ⟨by decide, rfl, rfl, M1r_costFromCache_eq, by norm_num⟩

/-- C2 counterexample: with "the right state" read as the state identified by
`rhs` (spec section 4.1), the sentinel iff fails on the code: after routing
(0,1) on `M1`, no reached label exists for `rhs = (1,0)` — neither keyed by its
StateId nor via `last_label` on the state identified by `rhs` — yet
`cost((0,1),(1,0))` returns 110, not `-1`, because the lookup is keyed on the
state at index `lhs.id()` (the line-84 slip of C1). -/
theorem tcm_c2_cex :
    lookupLabel ⟨1, 0⟩ (M1r.leftState ⟨0, 1⟩).labels = none
    ∧ (M1r.leftState ⟨0, 1⟩).last_label (rightStateSpec M1r ⟨1, 0⟩) = none
    ∧ (M1r.leftState ⟨0, 1⟩).routed = true
    ∧ costValue (M1r.cost ⟨0, 1⟩ ⟨1, 0⟩) = some (M1r.costFromCache ⟨0, 1⟩ ⟨1, 0⟩)
    ∧ M1r.costFromCache ⟨0, 1⟩ ⟨1, 0⟩ = 110
    ∧ (110 : ℚ) ≠ -1 :=
  ⟨rfl, rfl, rfl, rfl, M1r_costFromCache_eq, by norm_num⟩
